import Mathlib

set_option maxRecDepth 100000

/-!
# Verification of the compliance-review pipeline

A shallow embedding of `src/main.py` of the `compliance-demo` repository:
the string utilities (`extract`-emptiness check, Markdown fence stripping,
HTML report formatting) are translated as pure Lean functions over
`List Char` / `String`, and the effectful orchestration (`review_pdf`, the
HTTP endpoint `review_endpoint`, and the IMAP poller loop body) is
translated as explicit functions over oracle environments recording the
outcome of each external call (PDF extraction, the LLM completion, JSON
parsing, SMTP send) together with counters of the observable effects
(LLM calls attempted, email sends attempted, messages marked seen,
seconds slept).
-/

namespace ComplianceDemo

/-- The hardcoded sender allow-list (`ALLOWED_SENDERS` in `main.py`). -/
def ALLOWED_SENDERS : List String := ["devaang18@gmail.com", "neildillon10@gmail.com"]

/-! ## Python `str.strip` over character lists -/

/-- Python's `str.strip()`: drop whitespace from both ends, on `List Char`. -/
def stripChars (l : List Char) : List Char :=
  ((l.dropWhile Char.isWhitespace).reverse.dropWhile Char.isWhitespace).reverse

/-- Python's `str.strip()` on `String`. -/
def pyStrip (s : String) : String := ⟨stripChars s.data⟩

/-! ## `clean_gpt_json` (main.py lines 146-154) -/

/-- `clean_gpt_json` on `List Char`: strip, remove a leading ` ```json ` or
` ``` ` fence, remove a trailing ` ``` ` fence, stripping again after each
removal — a direct transcription of the Python slicing. -/
def cleanChars (raw : List Char) : List Char :=
  let c0 := stripChars raw
  let c1 :=
    if "```json".data.isPrefixOf c0 then stripChars (c0.drop 7)
    else if "```".data.isPrefixOf c0 then stripChars (c0.drop 3)
    else c0
  if "```".data.isSuffixOf c1 then stripChars (c1.take (c1.length - 3)) else c1

/-- `clean_gpt_json(raw_output)` from `main.py`. -/
def clean_gpt_json (raw : String) : String := ⟨cleanChars raw.data⟩

/-! ## Data model: ComplianceIssue / ComplianceReport

The LLM returns a JSON dict; `format_report_html` reads its keys with
`dict.get`, so every issue field is optional (`Option String`), matching
the Python behaviour of `issue.get(k)` returning `None` for a missing key.
-/

/-- One compliance issue, as the formatter consumes it: all fields are
optional dictionary entries. -/
structure Issue where
  id : Option String := none
  category : Option String := none
  severity : Option String := none
  regulation_reference : Option String := none
  exact_violation_text : Option String := none
  rule_description : Option String := none
  recommendation : Option String := none
deriving DecidableEq, Repr

/-- A compliance report: `summary` string and ordered issue list
(`report_json.get("summary","")` / `report_json.get("issues",[])`). -/
structure Report where
  summary : String := ""
  issues : List Issue := []
deriving DecidableEq, Repr

/-- Python `f"{issue.get(k)}"`: a missing key renders as the literal
string `None`. -/
def pyGetNone (o : Option String) : String := o.getD "None"

/-! ## `format_report_html` (main.py lines 65-116) -/

/-- The severity-to-colour dict lookup
`{"Low":"#d4edda","Medium":"#fff3cd","High":"#f8d7da"}.get(sev, "#ffffff")`. -/
def severityColorOf (sev : String) : String :=
  if sev = "Low" then "#d4edda"
  else if sev = "Medium" then "#fff3cd"
  else if sev = "High" then "#f8d7da"
  else "#ffffff"

/-- `issue.get("severity","Low")` fed to the colour dict: a missing
severity defaults to `"Low"` before the lookup. -/
def severityColor (sev : Option String) : String := severityColorOf (sev.getD "Low")

/-- Leading chunk of the HTML template, up to the interpolated summary. -/
def hdrPre : String := "\n    <html>\n    <body>\n        <p>Dear User,</p>\n        <p>Here is your Compliance Review Report:</p>\n        <h3>Summary:</h3>\n        <p>"

/-- Template chunk after the summary. -/
def hdrPost : String := "</p>\n    "

/-- Table opening and header row (rendered only when issues exist). -/
def tblHdr : String := "\n        <h3>Detailed Issues Found:</h3>\n        <table border=\"1\" cellpadding=\"5\" cellspacing=\"0\">\n            <tr style=\"background-color:#f2f2f2;\">\n                <th>Category</th>\n                <th>Severity</th>\n                <th>Regulation Reference</th>\n                <th>Violation Text</th>\n                <th>Rule Description</th>\n                <th>Recommendation</th>\n            </tr>\n        "

/-- Issue-row template up to the interpolated severity colour. -/
def rowPre : String := "\n                <tr style=\"background-color:"

/-- Issue-row template between the colour and the first cell. -/
def rowMid1 : String := ";\">\n                    <td>"

/-- Issue-row template between two cells. -/
def rowMid : String := "</td>\n                    <td>"

/-- Issue-row template closing the last cell and the row. -/
def rowEnd : String := "</td>\n                </tr>\n            "

/-- The fully-compliant banner (rendered only when issues is empty). -/
def bannerHtml : String := "\n        <p style=\"padding:10px; background-color:#d4edda; border:1px solid #c3e6cb; border-radius:5px;\">\n            ✅ No compliance issues were found in the submitted document. The document appears fully compliant.\n        </p>\n        "

/-- Closing template chunk. -/
def footerHtml : String := "\n        <p>Thank you for using Solas Compliance.</p>\n    </body>\n    </html>\n    "

/-- One `<tr>` of the issues table, exactly as the f-string in the Python
loop body builds it. -/
def issueRowHtml (i : Issue) : String :=
  rowPre ++ severityColor i.severity ++ rowMid1 ++ pyGetNone i.category ++ rowMid ++
    pyGetNone i.severity ++ rowMid ++ pyGetNone i.regulation_reference ++ rowMid ++
    pyGetNone i.exact_violation_text ++ rowMid ++ pyGetNone i.rule_description ++ rowMid ++
    pyGetNone i.recommendation ++ rowEnd

/-- The `html += ...` accumulation over the issue list. -/
def rowsHtml : List Issue → String
  | [] => ""
  | i :: rest => issueRowHtml i ++ rowsHtml rest

/-- `format_report_html(report_json)` from `main.py`: summary paragraph,
then either the issues table (non-empty issues) or the compliant banner
(empty issues), then the footer. -/
def format_report_html (r : Report) : String :=
  hdrPre ++ r.summary ++ hdrPost ++
    (if r.issues.isEmpty then bannerHtml
     else tblHdr ++ rowsHtml r.issues ++ "</table>") ++ footerHtml

/-! ## Effectful orchestration: `review_pdf` (main.py lines 159-210)

External calls are modelled by an oracle environment.  Each field gives
the outcome the corresponding external system would produce if called;
`review_pdf` consumes them in exactly the order the Python code performs
the calls, short-circuiting on the first raised exception (modelled as
`Except.error`), and records how many LLM calls and email sends it
attempted. -/

/-- Oracle environment for one `review_pdf` invocation. -/
structure Env where
  /-- Outcome of `extract_text_from_pdf` on the temp file written from the
  input bytes: the aggregate page text, or a raised extraction/decode error. -/
  extract : Except String String
  /-- Outcome of `openai.chat.completions.create`: the first completion's
  message content, or a raised API error. -/
  llm : Except String String
  /-- Outcome of `json.loads` on the cleaned LLM output (the argument is the
  string actually passed, i.e. `clean_gpt_json` of the raw output). -/
  parse : String → Except String Report
  /-- Outcome of `send_email` (SMTP connect/login/sendmail). -/
  sendResult : Except String Unit

/-- Observable outcome of one `review_pdf` invocation. -/
structure ReviewOutcome where
  /-- The returned report, or the exception that propagated out. -/
  result : Except String Report
  /-- Number of LLM completion calls attempted. -/
  llmCalls : Nat
  /-- Number of email sends attempted. -/
  sendAttempts : Nat
  /-- The HTML body handed to `send_email`, when the pipeline got that far. -/
  emailHtml : Option String
deriving Repr

/-- `review_pdf(pdf_bytes, sender_email, cc_emails, original_msg)`:
extract text; raise `ValueError("PDF contains no extractable text")` if the
stripped text is empty; call the LLM; clean and parse the JSON; format the
HTML; send the email; return the parsed report.  Any exception in a step
propagates (there is no try/except inside `review_pdf`). -/
def review_pdf (env : Env) : ReviewOutcome :=
  match env.extract with
  | .error e => ⟨.error e, 0, 0, none⟩
  | .ok text =>
    if stripChars text.data = [] then
      ⟨.error "PDF contains no extractable text", 0, 0, none⟩
    else
      match env.llm with
      | .error e => ⟨.error e, 1, 0, none⟩
      | .ok gptOutput =>
        match env.parse (clean_gpt_json gptOutput) with
        | .error e => ⟨.error e, 1, 0, none⟩
        | .ok report =>
          let html := format_report_html report
          match env.sendResult with
          | .error e => ⟨.error e, 1, 1, some html⟩
          | .ok _ => ⟨.ok report, 1, 1, some html⟩

/-! ## HTTP endpoint `POST /review` (main.py lines 215-224) -/

/-- Oracle environment for one HTTP request: the base64 decode outcome and
the review oracle for the decoded bytes. -/
structure EndpointEnv where
  /-- Outcome of `base64.b64decode(payload.file)`. -/
  decode : Except String Unit
  /-- Review oracle used if the decode succeeds. -/
  review : Env

/-- Observable outcome of one `POST /review` request. -/
structure EndpointOutcome where
  /-- HTTP status code of the response. -/
  status : Nat
  /-- The report returned in a 200 body, if any. -/
  report? : Option Report
  /-- Whether the base64 decode was attempted. -/
  decodeAttempted : Bool
  /-- Number of LLM completion calls attempted. -/
  llmCalls : Nat
  /-- Number of email sends attempted. -/
  sendAttempts : Nat
deriving Repr

/-- `review_endpoint(payload)`: reject a sender outside the allow-list with
403 before doing anything else; otherwise decode, run `review_pdf`, answer
200 with the report, mapping any exception to a 500. -/
def review_endpoint (sender : String) (env : EndpointEnv) : EndpointOutcome :=
  if sender ∈ ALLOWED_SENDERS then
    match env.decode with
    | .error _ => ⟨500, none, true, 0, 0⟩
    | .ok _ =>
      let r := review_pdf env.review
      match r.result with
      | .ok report => ⟨200, some report, true, r.llmCalls, r.sendAttempts⟩
      | .error _ => ⟨500, none, true, r.llmCalls, r.sendAttempts⟩
  else ⟨403, none, false, 0, 0⟩

/-! ## IMAP poller (main.py lines 229-270) -/

/-- One MIME part of a fetched message: its content type and, when the part
is a PDF that would be reviewed, the oracle for that review. -/
structure MsgPart where
  contentType : String
  review : Env

/-- One message returned by the UNSEEN search. -/
structure InMsg where
  /-- Whether `mail.fetch` returned status `"OK"` for this message. -/
  fetchOk : Bool
  /-- Sender address parsed from the `From` header. -/
  sender : String
  /-- MIME parts walked by `msg.walk()`. -/
  parts : List MsgPart

/-- Observable outcome of processing one message inside the poller loop. -/
structure MsgOutcome where
  /-- Whether the message was marked `\Seen`. -/
  markedSeen : Bool
  /-- Total LLM completion calls attempted for this message. -/
  llmCalls : Nat
  /-- Total email sends attempted for this message. -/
  sendAttempts : Nat
deriving DecidableEq, Repr

/-- The poller's per-message body (main.py lines 240-265): skip a failed
fetch; a disallowed sender is marked seen and skipped; otherwise every
`application/pdf` part is reviewed (each review wrapped in try/except, so
a failing review never stops the loop) and the message is marked seen. -/
def processMessage (msg : InMsg) : MsgOutcome :=
  if msg.fetchOk then
    if msg.sender ∈ ALLOWED_SENDERS then
      let outs := (msg.parts.filter (fun p => p.contentType = "application/pdf")).map
        (fun p => review_pdf p.review)
      ⟨true, (outs.map ReviewOutcome.llmCalls).sum, (outs.map ReviewOutcome.sendAttempts).sum⟩
    else ⟨true, 0, 0⟩
  else ⟨false, 0, 0⟩

/-- Oracle environment for one iteration of `email_listener_loop`'s
`while True` body. -/
structure CycleEnv where
  /-- Whether `IMAP4_SSL` / `login` / `select` raises. -/
  connectRaises : Bool
  /-- Whether `mail.search` raises. -/
  searchRaises : Bool
  /-- Whether the search returned status `"OK"`. -/
  searchStatusOk : Bool
  /-- The messages matched by the UNSEEN search. -/
  msgs : List InMsg
  /-- Whether `mail.logout` raises. -/
  logoutRaises : Bool

/-- Observable outcome of one poller cycle. -/
structure CycleOutcome where
  /-- The cycle always reaches `time.sleep` rather than throwing out of the
  loop (exceptions are caught by the `except` at the top of the loop). -/
  reachedSleep : Bool
  /-- Seconds slept before the next cycle. -/
  sleepSeconds : Nat
  /-- Whether an exception was caught (and logged) this cycle. -/
  caughtError : Bool
  /-- Total LLM completion calls attempted this cycle. -/
  llmCalls : Nat
  /-- Total email sends attempted this cycle. -/
  sendAttempts : Nat
deriving DecidableEq, Repr

/-- One iteration of `email_listener_loop`: any exception inside the `try`
is caught and the loop falls through to `time.sleep(60)`; but a search
returning a non-`"OK"` status hits `time.sleep(30); continue`, skipping the
logout and the 60-second sleep. -/
def pollerCycle (env : CycleEnv) : CycleOutcome :=
  if env.connectRaises then ⟨true, 60, true, 0, 0⟩
  else if env.searchRaises then ⟨true, 60, true, 0, 0⟩
  else if env.searchStatusOk then
    let outs := env.msgs.map processMessage
    ⟨true, 60, env.logoutRaises,
      (outs.map MsgOutcome.llmCalls).sum, (outs.map MsgOutcome.sendAttempts).sum⟩
  else ⟨true, 30, false, 0, 0⟩

/-! ## Sample oracle environments (concrete inputs for evaluation) -/

/-- A concrete parsed report. -/
def sampleReport : Report := { summary := "ok", issues := [] }

/-- An oracle under which every external call succeeds. -/
def sampleEnvOk : Env :=
  { extract := .ok "Bet now, no limits!", llm := .ok "x",
    parse := fun _ => .ok sampleReport, sendResult := .ok () }

/-- As `sampleEnvOk` but the SMTP send raises. -/
def sampleEnvSendFail : Env := { sampleEnvOk with sendResult := .error "SMTP failure" }

/-- As `sampleEnvOk` but the extracted text is whitespace-only. -/
def sampleEnvEmpty : Env := { sampleEnvOk with extract := .ok "  \n " }

/-! ## Substring occurrence counting

To state "the HTML contains exactly one table row per issue" we count the
occurrences of a marker substring in the produced HTML, viewed as a
character list. -/

/-- Number of positions of `s` at which `pat` occurs as a substring
(for the non-self-overlapping markers used here this is the usual
occurrence count). -/
def countOcc (pat : List Char) : List Char → Nat
  | [] => 0
  | c :: cs => (if pat.isPrefixOf (c :: cs) then 1 else 0) + countOcc pat cs

/-- `x` has no nonempty proper-length suffix that is a prefix of `pat`:
appending anything to `x` cannot create an occurrence of `pat` straddling
the boundary. -/
def tailsOk (pat x : List Char) : Prop :=
  ∀ t : List Char, t ≠ [] → t.length < pat.length → t <:+ x → ¬ t <+: pat

/-- Executable check for `tailsOk`. -/
def tailsOkB (pat x : List Char) : Bool :=
  (List.range pat.length).all fun k =>
    decide (k = 0) || ! ((x.drop (x.length - k)).isPrefixOf pat)

/-- Marker beginning every `<tr ...>` table row of the report HTML. -/
abbrev trPat : List Char := ['<', 't', 'r']

/-- Marker beginning the `<table ...>` element of the report HTML. -/
abbrev tblPat : List Char := ['<', 't', 'a', 'b', 'l', 'e']

/-- The banner marker character: it occurs in the fully-compliant banner
and nowhere in the rest of the template. -/
abbrev checkChar : Char := '✅'

/-- A string is benign when it contains neither `<` nor the banner
marker: substituted into the HTML template it can neither create a tag
nor fake the banner. -/
@[reducible] def benignStr (s : String) : Prop := '<' ∉ s.data ∧ checkChar ∉ s.data

/-- All six rendered cell strings of an issue are benign. -/
@[reducible] def benignIssue (i : Issue) : Prop :=
  benignStr (pyGetNone i.category) ∧ benignStr (pyGetNone i.severity) ∧
  benignStr (pyGetNone i.regulation_reference) ∧ benignStr (pyGetNone i.exact_violation_text) ∧
  benignStr (pyGetNone i.rule_description) ∧ benignStr (pyGetNone i.recommendation)

/-- The summary and every issue of the report are benign. -/
@[reducible] def benignReport (r : Report) : Prop :=
  benignStr r.summary ∧ ∀ i ∈ r.issues, benignIssue i

/-! ## Lemmas about occurrence counting -/

theorem prefix_append_iff_of_le {p u b : List Char} (h : p.length ≤ u.length) :
    p <+: u ++ b ↔ p <+: u := by
  constructor
  · rintro ⟨t, ht⟩
    have h1 : (p ++ t).take p.length = (u ++ b).take p.length := by rw [ht]
    rw [List.take_left, List.take_append_of_le_length h] at h1
    exact h1 ▸ List.take_prefix _ _
  · rintro ⟨t, ht⟩
    exact ⟨t ++ b, by rw [← List.append_assoc, ht]⟩

theorem append_prefix_of_le {p u b : List Char} (hp : p <+: u ++ b) (h : u.length ≤ p.length) :
    u <+: p := by
  obtain ⟨t, ht⟩ := hp
  have h1 : (p ++ t).take u.length = (u ++ b).take u.length := by rw [ht]
  rw [List.take_append_of_le_length h, List.take_left] at h1
  exact h1 ▸ List.take_prefix _ _

theorem countOcc_append (pat x b : List Char) (hx : tailsOk pat x) :
    countOcc pat (x ++ b) = countOcc pat x + countOcc pat b := by
  induction x with
  | nil => simp [countOcc]
  | cons c cs ih =>
    have hcs : tailsOk pat cs := fun t ht hlen hsuf =>
      hx t ht hlen (hsuf.trans (List.suffix_cons c cs))
    have hpre : pat.isPrefixOf (c :: (cs ++ b)) = pat.isPrefixOf (c :: cs) := by
      rw [Bool.eq_iff_iff, List.isPrefixOf_iff_prefix, List.isPrefixOf_iff_prefix]
      by_cases hfit : pat.length ≤ (c :: cs).length
      · exact prefix_append_iff_of_le hfit
      · constructor
        · intro hp
          exact absurd (append_prefix_of_le hp (by omega))
            (hx (c :: cs) (by simp) (by simp at hfit ⊢; omega) (List.suffix_refl _))
        · intro hp
          have := hp.length_le
          simp at this hfit
          omega
    simp only [List.cons_append, countOcc, List.append_eq]
    simp only [hpre]
    rw [ih hcs, Nat.add_assoc]

theorem countOcc_of_not_mem {c₀ : Char} {pt x : List Char} (hx : c₀ ∉ x) :
    countOcc (c₀ :: pt) x = 0 := by
  induction x with
  | nil => simp [countOcc]
  | cons c cs ih =>
    have h1 : c₀ ≠ c := fun h => hx (h ▸ List.mem_cons_self c cs)
    have h2 : c₀ ∉ cs := fun h => hx (List.mem_cons_of_mem c h)
    simp [countOcc, List.isPrefixOf, h1, ih h2]

theorem tailsOk_of_not_mem {c₀ : Char} {pt x : List Char} (hx : c₀ ∉ x) :
    tailsOk (c₀ :: pt) x := by
  intro t ht _ hsuf hpre
  match t, ht with
  | c :: ts, _ =>
    obtain ⟨r, hr⟩ := hpre
    rw [List.cons_append] at hr
    injection hr with hc _
    exact hx (hc ▸ hsuf.subset (List.mem_cons_self c ts))

theorem tailsOk_of_check {pat x : List Char} (h : tailsOkB pat x = true) : tailsOk pat x := by
  intro t ht hlen hsuf hpre
  have hdrop : t = x.drop (x.length - t.length) := List.suffix_iff_eq_drop.mp hsuf
  have hall := (List.all_eq_true.mp h) _ (List.mem_range.mpr hlen)
  have hne : ¬ (t.length = 0) := by
    rw [List.length_eq_zero]
    exact ht
  simp only [decide_eq_true_eq, Bool.or_eq_true, Bool.not_eq_true'] at hall
  rcases hall with hall | hall
  · exact hne hall
  · rw [← hdrop] at hall
    exact absurd (List.isPrefixOf_iff_prefix.mpr hpre) (by simp [hall])

/-! ## Lemmas about the report formatter -/

theorem severityColor_cases (s : Option String) :
    severityColor s = "#d4edda" ∨ severityColor s = "#fff3cd" ∨
    severityColor s = "#f8d7da" ∨ severityColor s = "#ffffff" := by
  unfold severityColor severityColorOf
  split_ifs <;> simp

theorem severityColor_benign (s : Option String) :
    '<' ∉ (severityColor s).data ∧ checkChar ∉ (severityColor s).data := by
  rcases severityColor_cases s with h | h | h | h <;> rw [h] <;> exact (by decide)

theorem row_count_append (i : Issue) (hb : benignIssue i) (w : List Char) :
    countOcc trPat ((issueRowHtml i).data ++ w) = 1 + countOcc trPat w := by
  obtain ⟨h1, h2, h3, h4, h5, h6⟩ := hb
  have hcol := (severityColor_benign i.severity).1
  have tkPre : tailsOk trPat rowPre.data := tailsOk_of_check (by decide)
  have tkMid1 : tailsOk trPat rowMid1.data := tailsOk_of_check (by decide)
  have tkMid : tailsOk trPat rowMid.data := tailsOk_of_check (by decide)
  have tkEnd : tailsOk trPat rowEnd.data := tailsOk_of_check (by decide)
  simp only [issueRowHtml, String.data_append, List.append_assoc]
  rw [countOcc_append _ _ _ tkPre,
      countOcc_append _ _ _ (tailsOk_of_not_mem hcol),
      countOcc_append _ _ _ tkMid1,
      countOcc_append _ _ _ (tailsOk_of_not_mem h1.1),
      countOcc_append _ _ _ tkMid,
      countOcc_append _ _ _ (tailsOk_of_not_mem h2.1),
      countOcc_append _ _ _ tkMid,
      countOcc_append _ _ _ (tailsOk_of_not_mem h3.1),
      countOcc_append _ _ _ tkMid,
      countOcc_append _ _ _ (tailsOk_of_not_mem h4.1),
      countOcc_append _ _ _ tkMid,
      countOcc_append _ _ _ (tailsOk_of_not_mem h5.1),
      countOcc_append _ _ _ tkMid,
      countOcc_append _ _ _ (tailsOk_of_not_mem h6.1),
      countOcc_append _ _ _ tkEnd]
  rw [countOcc_of_not_mem hcol, countOcc_of_not_mem h1.1, countOcc_of_not_mem h2.1,
      countOcc_of_not_mem h3.1, countOcc_of_not_mem h4.1, countOcc_of_not_mem h5.1,
      countOcc_of_not_mem h6.1]
  have cPre : countOcc trPat rowPre.data = 1 := by decide
  have cMid1 : countOcc trPat rowMid1.data = 0 := by decide
  have cMid : countOcc trPat rowMid.data = 0 := by decide
  have cEnd : countOcc trPat rowEnd.data = 0 := by decide
  rw [cPre, cMid1, cMid, cEnd]
  omega

theorem rows_count_append (issues : List Issue) (hb : ∀ i ∈ issues, benignIssue i)
    (w : List Char) :
    countOcc trPat ((rowsHtml issues).data ++ w) = issues.length + countOcc trPat w := by
  induction issues with
  | nil => simp [rowsHtml]
  | cons i rest ih =>
    simp only [rowsHtml, String.data_append, List.append_assoc]
    rw [row_count_append i (hb i (List.mem_cons_self i rest)),
        ih (fun j hj => hb j (List.mem_cons_of_mem i hj))]
    simp only [List.length_cons]
    omega

theorem row_count_checkChar (i : Issue) (hb : benignIssue i) :
    (issueRowHtml i).data.count checkChar = 0 := by
  obtain ⟨h1, h2, h3, h4, h5, h6⟩ := hb
  have hcol := (severityColor_benign i.severity).2
  simp only [issueRowHtml, String.data_append, List.count_append]
  rw [List.count_eq_zero.mpr hcol, List.count_eq_zero.mpr h1.2, List.count_eq_zero.mpr h2.2,
      List.count_eq_zero.mpr h3.2, List.count_eq_zero.mpr h4.2, List.count_eq_zero.mpr h5.2,
      List.count_eq_zero.mpr h6.2]
  have cPre : rowPre.data.count checkChar = 0 := by decide
  have cMid1 : rowMid1.data.count checkChar = 0 := by decide
  have cMid : rowMid.data.count checkChar = 0 := by decide
  have cEnd : rowEnd.data.count checkChar = 0 := by decide
  rw [cPre, cMid1, cMid, cEnd]

theorem rows_count_checkChar (issues : List Issue) (hb : ∀ i ∈ issues, benignIssue i) :
    (rowsHtml issues).data.count checkChar = 0 := by
  induction issues with
  | nil => rfl
  | cons i rest ih =>
    simp only [rowsHtml, String.data_append, List.count_append]
    rw [row_count_checkChar i (hb i (List.mem_cons_self i rest)),
        ih (fun j hj => hb j (List.mem_cons_of_mem i hj))]

/-- C4: for every ComplianceReport value with benign field strings (no `<`
and no banner-marker character in the summary or rendered issue cells): if
its issues list is non-empty, the formatted HTML contains exactly one
`<tr` table row per issue plus the single fixed header row, and no
fully-compliant banner; if its issues list is empty, the HTML contains the
fully-compliant banner exactly once and no `<table` element. -/
theorem formatter_rows_iff_issues (r : Report) (hb : benignReport r) :
    (r.issues ≠ [] →
      countOcc trPat (format_report_html r).data = r.issues.length + 1 ∧
      (format_report_html r).data.count checkChar = 0) ∧
    (r.issues = [] →
      (format_report_html r).data.count checkChar = 1 ∧
      countOcc tblPat (format_report_html r).data = 0) := by
  obtain ⟨hs, hbi⟩ := hb
  constructor
  · intro hne
    have hEmp : r.issues.isEmpty = false := by
      cases h : r.issues with
      | nil => exact absurd h hne
      | cons a l => rfl
    constructor
    · have tkHdrPre : tailsOk trPat hdrPre.data := tailsOk_of_check (by decide)
      have tkHdrPost : tailsOk trPat hdrPost.data := tailsOk_of_check (by decide)
      have tkTbl : tailsOk trPat tblHdr.data := tailsOk_of_check (by decide)
      have tkClose : tailsOk trPat "</table>".data := tailsOk_of_check (by decide)
      simp only [format_report_html, hEmp, Bool.false_eq_true, if_false,
        String.data_append, List.append_assoc]
      rw [countOcc_append _ _ _ tkHdrPre,
          countOcc_append _ _ _ (tailsOk_of_not_mem hs.1),
          countOcc_append _ _ _ tkHdrPost,
          countOcc_append _ _ _ tkTbl,
          rows_count_append r.issues hbi,
          countOcc_append _ _ _ tkClose,
          countOcc_of_not_mem hs.1]
      have c1 : countOcc trPat hdrPre.data = 0 := by decide
      have c2 : countOcc trPat hdrPost.data = 0 := by decide
      have c3 : countOcc trPat tblHdr.data = 1 := by decide
      have c4 : countOcc trPat "</table>".data = 0 := by decide
      have c5 : countOcc trPat footerHtml.data = 0 := by decide
      rw [c1, c2, c3, c4, c5]
      omega
    · simp only [format_report_html, hEmp, Bool.false_eq_true, if_false,
        String.data_append, List.count_append]
      rw [rows_count_checkChar r.issues hbi, List.count_eq_zero.mpr hs.2]
      have c1 : hdrPre.data.count checkChar = 0 := by decide
      have c2 : hdrPost.data.count checkChar = 0 := by decide
      have c3 : tblHdr.data.count checkChar = 0 := by decide
      have c4 : ("</table>".data).count checkChar = 0 := by decide
      have c5 : footerHtml.data.count checkChar = 0 := by decide
      rw [c1, c2, c3, c4, c5]
  · intro hemp
    have hEmp : r.issues.isEmpty = true := by rw [hemp]; rfl
    constructor
    · simp only [format_report_html, hEmp, if_true, String.data_append, List.count_append]
      rw [List.count_eq_zero.mpr hs.2]
      have c1 : hdrPre.data.count checkChar = 0 := by decide
      have c2 : hdrPost.data.count checkChar = 0 := by decide
      have c3 : bannerHtml.data.count checkChar = 1 := by decide
      have c4 : footerHtml.data.count checkChar = 0 := by decide
      rw [c1, c2, c3, c4]
    · have tkHdrPre : tailsOk tblPat hdrPre.data := tailsOk_of_check (by decide)
      have tkHdrPost : tailsOk tblPat hdrPost.data := tailsOk_of_check (by decide)
      have tkBan : tailsOk tblPat bannerHtml.data := tailsOk_of_check (by decide)
      simp only [format_report_html, hEmp, if_true, String.data_append, List.append_assoc]
      rw [countOcc_append _ _ _ tkHdrPre,
          countOcc_append _ _ _ (tailsOk_of_not_mem hs.1),
          countOcc_append _ _ _ tkHdrPost,
          countOcc_append _ _ _ tkBan,
          countOcc_of_not_mem hs.1]
      have c1 : countOcc tblPat hdrPre.data = 0 := by decide
      have c2 : countOcc tblPat hdrPost.data = 0 := by decide
      have c3 : countOcc tblPat bannerHtml.data = 0 := by decide
      have c4 : countOcc tblPat footerHtml.data = 0 := by decide
      rw [c1, c2, c3, c4]

/-- Witness for the C4 theorem: a concrete one-issue report (all
hypotheses discharged) yields two `<tr` rows — one data row plus the
header row — and no banner. -/
theorem formatter_rows_iff_issues_witness :
    countOcc trPat (format_report_html
      { summary := "One issue found.",
        issues := [{ category := some "Gambling", severity := some "High" }] }).data = 2 ∧
    (format_report_html
      { summary := "One issue found.",
        issues := [{ category := some "Gambling", severity := some "High" }] }).data.count
      checkChar = 0 := by
  have h := formatter_rows_iff_issues
    { summary := "One issue found.",
      issues := [{ category := some "Gambling", severity := some "High" }] }
    (by constructor
        · decide
        · intro i hi
          simp only [List.mem_singleton] at hi
          rw [hi]
          decide)
  exact h.1 (by decide)

/-! ## Lemmas about `stripChars` and `cleanChars` -/

theorem head_not_ws {c : Char} {t : List Char}
    (h : (c :: t).dropWhile Char.isWhitespace = c :: t) : Char.isWhitespace c = false := by
  by_contra hcc
  have hcc' : Char.isWhitespace c = true := by simpa using hcc
  rw [List.dropWhile_cons, if_pos hcc'] at h
  have hlen := congrArg List.length h
  have hle := (List.dropWhile_suffix (l := t) Char.isWhitespace).length_le
  simp at hlen
  omega

theorem dropWhile_fix_append {x : List Char} (h : x.dropWhile Char.isWhitespace = x)
    (hne : x ≠ []) (y : List Char) :
    (x ++ y).dropWhile Char.isWhitespace = x ++ y := by
  match x, hne with
  | c :: t, _ =>
    have hc := head_not_ws h
    simp [List.cons_append, List.dropWhile_cons, hc]

theorem strip_eq_self_parts {l : List Char} (h : stripChars l = l) :
    l.dropWhile Char.isWhitespace = l ∧
    l.reverse.dropWhile Char.isWhitespace = l.reverse := by
  have ha : l.dropWhile Char.isWhitespace <:+ l := List.dropWhile_suffix _
  have hb : (l.dropWhile Char.isWhitespace).reverse.dropWhile Char.isWhitespace <:+
      (l.dropWhile Char.isWhitespace).reverse := List.dropWhile_suffix _
  have hlen : ((l.dropWhile Char.isWhitespace).reverse.dropWhile Char.isWhitespace).length
      = l.length := by
    have := congrArg List.length h
    simpa [stripChars] using this
  have la := ha.length_le
  have lb := hb.length_le
  rw [List.length_reverse] at lb
  have ha' := ha.eq_of_length (by omega)
  refine ⟨ha', ?_⟩
  have hbb := hb.eq_of_length (by rw [List.length_reverse]; omega)
  rw [ha'] at hbb
  exact hbb

theorem stripChars_eq_self {l : List Char} (h1 : l.dropWhile Char.isWhitespace = l)
    (h2 : l.reverse.dropWhile Char.isWhitespace = l.reverse) : stripChars l = l := by
  simp [stripChars, h1, h2]

/-- C5: for every trimmed, non-empty string `s` that neither starts nor
ends with a code fence (all true of a canonically serialized JSON value),
`clean_gpt_json` returns exactly `s` whether the LLM output was `s`
wrapped in Markdown fences with the `json` language tag, wrapped in bare
fences, or unwrapped — so `json.loads` sees the identical string and
yields the same ComplianceReport. -/
theorem fence_strip_roundtrip (s : String) (hfix : pyStrip s = s) (hne : s.data ≠ [])
    (hpre : ("```".data).isPrefixOf s.data = false)
    (hsuf : ("```".data).isSuffixOf s.data = false) :
    clean_gpt_json ("```json\n" ++ s ++ "\n```") = s ∧
    clean_gpt_json ("```\n" ++ s ++ "\n```") = s ∧
    clean_gpt_json s = s := by
  have hfix' : stripChars s.data = s.data := congrArg String.data hfix
  obtain ⟨hfr, hbk⟩ := strip_eq_self_parts hfix'
  -- the tail segment shared by both wrapped forms
  have hRrev : (s.data ++ "\n```".data).reverse = '`' :: '`' :: '`' :: '\n' :: s.data.reverse := by
    rw [List.reverse_append]
    rfl
  have hstrip2 : stripChars ('\n' :: (s.data ++ "\n```".data)) = s.data ++ "\n```".data := by
    unfold stripChars
    rw [List.dropWhile_cons, if_pos (by decide : Char.isWhitespace '\n' = true),
      dropWhile_fix_append hfr hne, hRrev, List.dropWhile_cons,
      if_neg (by decide : ¬ Char.isWhitespace '`' = true)]
    rw [← hRrev, List.reverse_reverse]
  have hsfx : ("```".data).isSuffixOf (s.data ++ "\n```".data) = true := by
    show (("```".data).reverse).isPrefixOf (s.data ++ "\n```".data).reverse = true
    rw [hRrev]
    rfl
  have hlen4 : (s.data ++ "\n```".data).length = s.data.length + 4 := by
    simp [List.length_append]
  have htake : (s.data ++ "\n```".data).take ((s.data ++ "\n```".data).length - 3)
      = s.data ++ ['\n'] := by
    rw [hlen4, show s.data.length + 4 - 3 = s.data.length + 1 from by omega,
      List.take_append]
    rfl
  have hstrip3 : stripChars (s.data ++ ['\n']) = s.data := by
    unfold stripChars
    rw [dropWhile_fix_append hfr hne,
      show (s.data ++ ['\n']).reverse = '\n' :: s.data.reverse from by simp,
      List.dropWhile_cons, if_pos (by decide : Char.isWhitespace '\n' = true), hbk,
      List.reverse_reverse]
  have hpj : ("```json".data).isPrefixOf s.data = false := by
    by_contra h
    rw [Bool.not_eq_false] at h
    have h' := List.isPrefixOf_iff_prefix.mp h
    have h3 : ("```".data) <+: s.data :=
      List.IsPrefix.trans ⟨"json".data, rfl⟩ h'
    exact absurd (List.isPrefixOf_iff_prefix.mpr h3) (by simp [hpre])
  refine ⟨?_, ?_, ?_⟩
  · show String.mk (cleanChars ("```json\n" ++ s ++ "\n```").data) = s
    have hX : ("```json\n" ++ s ++ "\n```").data
        = "```json\n".data ++ (s.data ++ "\n```".data) := by
      simp [String.data_append]
    rw [hX]
    have hstrip1 : stripChars ("```json\n".data ++ (s.data ++ "\n```".data))
        = "```json\n".data ++ (s.data ++ "\n```".data) := by
      apply stripChars_eq_self
      · exact dropWhile_fix_append (by decide) (by decide) _
      · rw [List.reverse_append, hRrev]
        rw [show ("```json\n".data).reverse = "\nnosj```".data from by decide]
        rfl
    show String.mk (cleanChars _) = String.mk s.data
    apply congrArg String.mk
    simp only [cleanChars, hstrip1]
    rw [if_pos (by rfl :
      ("```json".data).isPrefixOf ("```json\n".data ++ (s.data ++ "\n```".data)) = true)]
    rw [show ("```json\n".data ++ (s.data ++ "\n```".data)).drop 7
        = '\n' :: (s.data ++ "\n```".data) from rfl]
    rw [hstrip2, if_pos hsfx, htake, hstrip3]
  · show String.mk (cleanChars ("```\n" ++ s ++ "\n```").data) = s
    have hX : ("```\n" ++ s ++ "\n```").data
        = "```\n".data ++ (s.data ++ "\n```".data) := by
      simp [String.data_append]
    rw [hX]
    have hstrip1 : stripChars ("```\n".data ++ (s.data ++ "\n```".data))
        = "```\n".data ++ (s.data ++ "\n```".data) := by
      apply stripChars_eq_self
      · exact dropWhile_fix_append (by decide) (by decide) _
      · rw [List.reverse_append, hRrev]
        rw [show ("```\n".data).reverse = "\n```".data from by decide]
        rfl
    show String.mk (cleanChars _) = String.mk s.data
    apply congrArg String.mk
    simp only [cleanChars, hstrip1]
    rw [if_neg (by simp :
      ¬ ("```json".data).isPrefixOf ("```\n".data ++ (s.data ++ "\n```".data)) = true)]
    rw [if_pos (by rfl :
      ("```".data).isPrefixOf ("```\n".data ++ (s.data ++ "\n```".data)) = true)]
    rw [show ("```\n".data ++ (s.data ++ "\n```".data)).drop 3
        = '\n' :: (s.data ++ "\n```".data) from rfl]
    rw [hstrip2, if_pos hsfx, htake, hstrip3]
  · show String.mk (cleanChars s.data) = String.mk s.data
    apply congrArg String.mk
    simp only [cleanChars, hfix']
    rw [if_neg (show ¬ ("```json".data.isPrefixOf s.data = true) from by rw [hpj]; simp),
        if_neg (show ¬ ("```".data.isPrefixOf s.data = true) from by rw [hpre]; simp),
        if_neg (show ¬ ("```".data.isSuffixOf s.data = true) from by rw [hsuf]; simp)]

/-- Witness for the C5 theorem at a concrete JSON report string. -/
theorem fence_strip_roundtrip_witness :
    clean_gpt_json ("```json\n" ++ "\x7b\"issues\": [], \"summary\": \"ok\"\x7d" ++ "\n```")
      = "\x7b\"issues\": [], \"summary\": \"ok\"\x7d" ∧
    clean_gpt_json "\x7b\"issues\": [], \"summary\": \"ok\"\x7d"
      = "\x7b\"issues\": [], \"summary\": \"ok\"\x7d" := by
  have h := fence_strip_roundtrip "\x7b\"issues\": [], \"summary\": \"ok\"\x7d"
    (by decide) (by decide) (by decide) (by decide)
  exact ⟨h.1, h.2.2⟩

/-- C9: the issue-row background colour used by `format_report_html` is
keyed by the severity string: Low maps to pale green `#d4edda`, Medium to
pale yellow `#fff3cd`, High to pale red `#f8d7da`, and any other present
severity value maps to white `#ffffff`. -/
theorem severity_row_colors :
    severityColor (some "Low") = "#d4edda" ∧
    severityColor (some "Medium") = "#fff3cd" ∧
    severityColor (some "High") = "#f8d7da" ∧
    ∀ s : String, s ≠ "Low" → s ≠ "Medium" → s ≠ "High" →
      severityColor (some s) = "#ffffff" := by
  refine ⟨rfl, rfl, rfl, ?_⟩
  intro s h1 h2 h3
  simp only [severityColor, Option.getD_some, severityColorOf]
  rw [if_neg h1, if_neg h2, if_neg h3]

/-- Witness for the C9 theorem: the unrecognized severity `"Critical"`
renders white. -/
theorem severity_row_colors_witness : severityColor (some "Critical") = "#ffffff" :=
  severity_row_colors.2.2.2 "Critical" (by decide) (by decide) (by decide)

/-- C10: an issue carrying no severity field at all is rendered with the
Low colour pale green `#d4edda`, not white — the white fallback requires a
severity value that is present but is none of Low, Medium, High. -/
theorem missing_severity_renders_low :
    severityColor none = "#d4edda" ∧ severityColor none ≠ "#ffffff" ∧
    ∀ s : String, severityColor (some s) = "#ffffff" →
      s ≠ "Low" ∧ s ≠ "Medium" ∧ s ≠ "High" := by
  refine ⟨rfl, by decide, ?_⟩
  intro s h
  simp only [severityColor, Option.getD_some, severityColorOf] at h
  split_ifs at h with h1 h2 h3
  · exact absurd h (by decide)
  · exact absurd h (by decide)
  · exact absurd h (by decide)
  · exact ⟨h1, h2, h3⟩

/-- Witness for the C10 theorem: `"Other"` renders white, hence is none of
the three recognized severities. -/
theorem missing_severity_renders_low_witness :
    "Other" ≠ "Low" ∧ "Other" ≠ "Medium" ∧ "Other" ≠ "High" :=
  missing_severity_renders_low.2.2 "Other" (by decide)

/-! ## Orchestration claims -/

/-- C1 counterexample: with every step up to and including JSON parsing
succeeding but the SMTP send raising, `review_pdf` propagates the send
error instead of returning the parsed report, and the HTTP endpoint
answers 500, not 200. -/
theorem send_failure_counterexample :
    (review_pdf sampleEnvSendFail).result = .error "SMTP failure" ∧
    (review_pdf sampleEnvSendFail).result ≠ .ok sampleReport ∧
    (review_endpoint "devaang18@gmail.com"
        { decode := .ok (), review := sampleEnvSendFail }).status = 500 ∧
    (review_endpoint "devaang18@gmail.com"
        { decode := .ok (), review := sampleEnvSendFail }).status ≠ 200 := by
  refine ⟨rfl, ?_, rfl, by decide⟩
  rw [show (review_pdf sampleEnvSendFail).result
      = (Except.error "SMTP failure" : Except String Report) from rfl]
  simp

/-- C1 amended: a failure in the email-send step fails the overall review:
`review_pdf` propagates the send exception (after exactly one LLM call and
one send attempt), so the HTTP endpoint returns 500 rather than the
report; only the mailbox poller catches the failure per-attachment, and
it still marks the message seen. -/
theorem send_failure_propagates (sender : String) (eenv : EndpointEnv) (e t g : String)
    (r : Report) (hsend : sender ∈ ALLOWED_SENDERS) (hdec : eenv.decode = .ok ())
    (hex : eenv.review.extract = .ok t) (ht : ¬ stripChars t.data = [])
    (hllm : eenv.review.llm = .ok g)
    (hparse : eenv.review.parse (clean_gpt_json g) = .ok r)
    (herr : eenv.review.sendResult = .error e) :
    (review_pdf eenv.review).result = .error e ∧
    (review_pdf eenv.review).llmCalls = 1 ∧
    (review_pdf eenv.review).sendAttempts = 1 ∧
    (review_endpoint sender eenv).status = 500 ∧
    (∀ msg : InMsg, msg.fetchOk = true → msg.sender ∈ ALLOWED_SENDERS →
        (processMessage msg).markedSeen = true) := by
  have hrev : review_pdf eenv.review
      = ⟨.error e, 1, 1, some (format_report_html r)⟩ := by
    simp [review_pdf, hex, ht, hllm, hparse, herr]
  refine ⟨by rw [hrev], by rw [hrev], by rw [hrev], ?_, ?_⟩
  · simp [review_endpoint, hsend, hdec, hrev]
  · intro msg hf hm
    simp [processMessage, hf, hm]

/-- Witness for the C1 amended theorem at the concrete send-failure
oracle. -/
theorem send_failure_propagates_witness :
    (review_pdf sampleEnvSendFail).result = .error "SMTP failure" ∧
    (review_endpoint "devaang18@gmail.com"
        { decode := .ok (), review := sampleEnvSendFail }).status = 500 := by
  have h := send_failure_propagates "devaang18@gmail.com"
    { decode := .ok (), review := sampleEnvSendFail }
    "SMTP failure" "Bet now, no limits!" "x" sampleReport
    (by decide) rfl rfl (by decide) rfl rfl rfl
  exact ⟨h.1, h.2.2.2.1⟩

/-- C2: whenever the extracted text of the PDF strips to the empty string,
`review_pdf` raises the empty-document `ValueError` before any LLM call
and before any email send, and through `POST /review` this yields a 500
response with zero emails sent. -/
theorem empty_text_fails_before_llm (sender : String) (eenv : EndpointEnv) (t : String)
    (hsend : sender ∈ ALLOWED_SENDERS) (hdec : eenv.decode = .ok ())
    (hex : eenv.review.extract = .ok t) (ht : stripChars t.data = []) :
    (review_pdf eenv.review).result = .error "PDF contains no extractable text" ∧
    (review_pdf eenv.review).llmCalls = 0 ∧
    (review_pdf eenv.review).sendAttempts = 0 ∧
    (review_endpoint sender eenv).status = 500 ∧
    (review_endpoint sender eenv).sendAttempts = 0 := by
  have hrev : review_pdf eenv.review
      = ⟨.error "PDF contains no extractable text", 0, 0, none⟩ := by
    simp [review_pdf, hex, ht]
  refine ⟨by rw [hrev], by rw [hrev], by rw [hrev], ?_, ?_⟩ <;>
    simp [review_endpoint, hsend, hdec, hrev]

/-- Witness for the C2 theorem at a whitespace-only extraction oracle. -/
theorem empty_text_fails_before_llm_witness :
    (review_pdf sampleEnvEmpty).llmCalls = 0 ∧
    (review_endpoint "devaang18@gmail.com"
        { decode := .ok (), review := sampleEnvEmpty }).status = 500 := by
  have h := empty_text_fails_before_llm "devaang18@gmail.com"
    { decode := .ok (), review := sampleEnvEmpty } "  \n "
    (by decide) rfl rfl (by decide)
  exact ⟨h.2.1, h.2.2.2.1⟩

/-- C3: a `POST /review` request whose sender is not in the allow-list is
answered 403 and the Compliance Reviewer is never invoked: no base64
decode, no LLM call, no email send. -/
theorem unauthorized_sender_rejected (sender : String) (eenv : EndpointEnv)
    (hs : sender ∉ ALLOWED_SENDERS) :
    (review_endpoint sender eenv).status = 403 ∧
    (review_endpoint sender eenv).decodeAttempted = false ∧
    (review_endpoint sender eenv).llmCalls = 0 ∧
    (review_endpoint sender eenv).sendAttempts = 0 ∧
    (review_endpoint sender eenv).report? = none := by
  refine ⟨?_, ?_, ?_, ?_, ?_⟩ <;> simp [review_endpoint, hs]

/-- Witness for the C3 theorem at a concrete unlisted sender. -/
theorem unauthorized_sender_rejected_witness :
    (review_endpoint "mallory@example.com"
        { decode := .ok (), review := sampleEnvOk }).status = 403 ∧
    (review_endpoint "mallory@example.com"
        { decode := .ok (), review := sampleEnvOk }).decodeAttempted = false := by
  have h := unauthorized_sender_rejected "mallory@example.com"
    { decode := .ok (), review := sampleEnvOk } (by decide)
  exact ⟨h.1, h.2.1⟩

/-- C6: an unseen inbox message whose From address is not in the
allow-list is marked seen by the poller with zero LLM calls and zero
email sends. -/
theorem unlisted_poller_sender_skipped (msg : InMsg) (hf : msg.fetchOk = true)
    (hs : msg.sender ∉ ALLOWED_SENDERS) :
    (processMessage msg).markedSeen = true ∧
    (processMessage msg).llmCalls = 0 ∧
    (processMessage msg).sendAttempts = 0 := by
  refine ⟨?_, ?_, ?_⟩ <;> simp [processMessage, hf, hs]

/-- Witness for the C6 theorem: an unlisted sender with a PDF attachment. -/
theorem unlisted_poller_sender_skipped_witness :
    (processMessage
        { fetchOk := true, sender := "spam@example.com",
          parts := [{ contentType := "application/pdf", review := sampleEnvOk }] }).markedSeen
      = true ∧
    (processMessage
        { fetchOk := true, sender := "spam@example.com",
          parts := [{ contentType := "application/pdf", review := sampleEnvOk }] }).llmCalls
      = 0 := by
  have h := unlisted_poller_sender_skipped
    { fetchOk := true, sender := "spam@example.com",
      parts := [{ contentType := "application/pdf", review := sampleEnvOk }] }
    rfl (by decide)
  exact ⟨h.1, h.2.1⟩

theorem review_pdf_counts (env : Env) :
    (review_pdf env).llmCalls ≤ 1 ∧
    (review_pdf env).sendAttempts ≤ (review_pdf env).llmCalls := by
  rcases hE : env.extract with e | t
  · simp [review_pdf, hE]
  · by_cases hT : stripChars t.data = []
    · simp [review_pdf, hE, hT]
    · rcases hL : env.llm with e | g
      · simp [review_pdf, hE, hT, hL]
      · rcases hP : env.parse (clean_gpt_json g) with e | r
        · simp [review_pdf, hE, hT, hL, hP]
        · rcases hS : env.sendResult with e | u
          · simp [review_pdf, hE, hT, hL, hP, hS]
          · simp [review_pdf, hE, hT, hL, hP, hS]

theorem pdf_outcome_sums (L : List MsgPart) :
    ((L.map (fun p => review_pdf p.review)).map ReviewOutcome.llmCalls).sum ≤ L.length ∧
    ((L.map (fun p => review_pdf p.review)).map ReviewOutcome.sendAttempts).sum ≤ L.length := by
  induction L with
  | nil => simp
  | cons p rest ih =>
    have h := review_pdf_counts p.review
    simp only [List.map_cons, List.sum_cons, List.length_cons]
    omega

/-- C7 amended: each `review_pdf` invocation makes at most one LLM call
and never a send attempt without the call; an HTTP request therefore
triggers at most one LLM call and at most one email send; the poller
triggers at most one LLM call and at most one send per PDF attachment of
an inbound email — an email with several PDF attachments triggers one
call per attachment, not one per email. -/
theorem llm_and_send_bounds :
    (∀ env : Env, (review_pdf env).llmCalls ≤ 1 ∧
        (review_pdf env).sendAttempts ≤ (review_pdf env).llmCalls) ∧
    (∀ (sender : String) (eenv : EndpointEnv),
        (review_endpoint sender eenv).llmCalls ≤ 1 ∧
        (review_endpoint sender eenv).sendAttempts ≤ 1) ∧
    (∀ msg : InMsg,
        (processMessage msg).llmCalls
            ≤ (msg.parts.filter (fun p => p.contentType = "application/pdf")).length ∧
        (processMessage msg).sendAttempts
            ≤ (msg.parts.filter (fun p => p.contentType = "application/pdf")).length) := by
  refine ⟨review_pdf_counts, ?_, ?_⟩
  · intro sender eenv
    by_cases hs : sender ∈ ALLOWED_SENDERS
    · rcases hD : eenv.decode with e | u
      · simp [review_endpoint, hs, hD]
      · obtain ⟨h1, h2⟩ := review_pdf_counts eenv.review
        rcases hR : (review_pdf eenv.review).result with e | r <;>
          simp [review_endpoint, hs, hD, hR] <;> omega
    · simp [review_endpoint, hs]
  · intro msg
    by_cases hf : msg.fetchOk = true
    · by_cases hm : msg.sender ∈ ALLOWED_SENDERS
      · obtain ⟨h1, h2⟩ :=
          pdf_outcome_sums (msg.parts.filter (fun p => p.contentType = "application/pdf"))
        simp only [processMessage, hf, hm, if_true, if_pos]
        exact ⟨h1, h2⟩
      · simp [processMessage, hf, hm]
    · have hf' : msg.fetchOk = false := by
        revert hf
        cases msg.fetchOk <;> simp
      simp [processMessage, hf']

/-- C7 counterexample: an inbound email with two PDF attachments triggers
two LLM calls and two email sends — not "exactly one LLM call and at most
one email send" per inbound email. -/
theorem two_attachments_two_llm_calls :
    (processMessage
        { fetchOk := true, sender := "devaang18@gmail.com",
          parts := [{ contentType := "application/pdf", review := sampleEnvOk },
                    { contentType := "application/pdf", review := sampleEnvOk }] }).llmCalls
      = 2 ∧
    (processMessage
        { fetchOk := true, sender := "devaang18@gmail.com",
          parts := [{ contentType := "application/pdf", review := sampleEnvOk },
                    { contentType := "application/pdf", review := sampleEnvOk }] }).sendAttempts
      = 2 := by
  exact ⟨rfl, rfl⟩

/-- C8 amended: every poller cycle — including one in which connecting or
searching raises — reaches the sleeping state without throwing out of the
loop; the wait is 60 seconds for every cycle except the one in which the
UNSEEN search returns a non-OK status, which sleeps only 30 seconds (and
skips the logout) before the next cycle. -/
theorem poller_cycle_reaches_sleep (env : CycleEnv) :
    (pollerCycle env).reachedSleep = true ∧
    (pollerCycle env).sleepSeconds =
      (if env.connectRaises = false ∧ env.searchRaises = false ∧ env.searchStatusOk = false
        then 30 else 60) := by
  rcases hc : env.connectRaises <;> rcases hs : env.searchRaises <;>
    rcases hk : env.searchStatusOk <;> simp [pollerCycle, hc, hs, hk]

/-- C8 counterexample: the cycle in which the IMAP UNSEEN search returns a
non-OK status sleeps 30 seconds, not the fixed 60-second interval the
claim states (though it does reach the sleep without throwing). -/
theorem search_fail_sleeps_thirty :
    (pollerCycle
        { connectRaises := false, searchRaises := false, searchStatusOk := false,
          msgs := [], logoutRaises := false }).sleepSeconds = 30 ∧
    (pollerCycle
        { connectRaises := false, searchRaises := false, searchStatusOk := false,
          msgs := [], logoutRaises := false }).sleepSeconds ≠ 60 ∧
    (pollerCycle
        { connectRaises := false, searchRaises := false, searchStatusOk := false,
          msgs := [], logoutRaises := false }).reachedSleep = true := by
  refine ⟨rfl, by decide, rfl⟩

end ComplianceDemo
